import Mathlib

/-!
Verification of the report-ingestion and lab-data-extraction pipeline of the
`gym-bros` repository (`src/app.py`), a Flask application that extracts text
from uploaded PDF reports, turns the text into structured lab results via a
remote generation service, and supports a capped conversational history per
session.

The Python source is shallowly embedded:
* external capabilities (the PyPDF2 / pdfplumber / OCR libraries, the Gemini
  generation service, `json.loads`) are modelled as explicit environment
  records whose fields describe the observable behaviour of each call;
* Python exceptions are modelled with `Except`, and the source's
  `try/except` handlers are folded exactly where they appear in the code;
* JSON values are modelled by the inductive `JValue`; Python `float` values
  are modelled exactly as rationals (`Rat`), since no claim depends on
  binary floating-point rounding;
* Python strings are Lean `String`s / `List Char`, with Python's
  whitespace-stripping and containment operations modelled character by
  character (ASCII whitespace classes; the source only ever manipulates
  ASCII markers).
-/

namespace MedApp

/-! ## Python string primitives -/

/-- The whitespace characters stripped by Python's `str.strip()` (ASCII part). -/
def isPySpace (c : Char) : Bool :=
  c = ' ' || c = '\t' || c = '\n' || c = '\r' || c = '\x0b' || c = '\x0c'

/-- Python `str.strip()` on a character list. -/
def pyStripChars (l : List Char) : List Char :=
  ((l.dropWhile isPySpace).reverse.dropWhile isPySpace).reverse

/-- Python `str.strip()`. -/
def pyStripStr (s : String) : String := ⟨pyStripChars s.data⟩

/-- Truthiness of `s.strip()` in Python: true iff `s` has a non-whitespace
character.  This models every `if text.strip():` test in the source. -/
def stripTruthy (s : String) : Bool := s.data.any (fun c => !(isPySpace c))

/-- First index at which `pat` occurs as a contiguous sublist of `hay`
(Python `str.find` for a multi-character needle, and the basis of the
Python `in` containment test). -/
def findSubIdx (hay pat : List Char) : Option Nat :=
  match hay with
  | [] => if pat.isEmpty then some 0 else none
  | _ :: cs =>
    if pat.isPrefixOf hay then some 0
    else (findSubIdx cs pat).map (· + 1)

/-- Python `pat in hay` for strings. -/
def containsSub (hay pat : List Char) : Bool := (findSubIdx hay pat).isSome

/-! ## JSON values (`json.loads` results) -/

/-- A parsed JSON value, as produced by Python's `json.loads`.  Numbers are
modelled exactly as rationals; objects are association lists with the unique
keys a Python dict has after parsing. -/
inductive JValue where
  | null
  | bool (b : Bool)
  | num (q : Rat)
  | str (s : String)
  | arr (elts : List JValue)
  | obj (fields : List (String × JValue))

/-! ## Python `float()` coercion -/

/-- Numeric value of a list of decimal digit characters. -/
def natOfDigits (l : List Char) : Nat :=
  l.foldl (fun acc c => 10 * acc + (c.toNat - 48)) 0

/-- Python `float(s)` on a string, modelled exactly over rationals for
decimal literals: optional surrounding whitespace, optional sign, mantissa
digits with an optional fractional part, optional decimal exponent.  The
special spellings `inf`/`infinity`/`nan` (not representable in `Rat`),
digit-group underscores and non-ASCII digits are modelled as failures; no
claim exercises them. -/
def pyFloatOfString (s : String) : Option Rat :=
  let l := pyStripChars s.data
  let sl : Rat × List Char :=
    match l with
    | '+' :: t => (1, t)
    | '-' :: t => (-1, t)
    | t => (1, t)
  let ip := sl.2.takeWhile Char.isDigit
  let r1 := sl.2.dropWhile Char.isDigit
  let fr : Option (List Char) × List Char :=
    match r1 with
    | '.' :: t => (some (t.takeWhile Char.isDigit), t.dropWhile Char.isDigit)
    | t => (none, t)
  let fp := (fr.1).getD []
  if ip.isEmpty && fp.isEmpty then none
  else
    let mant : Rat := (natOfDigits ip : Rat) + (natOfDigits fp : Rat) / ((10 : Rat) ^ fp.length)
    match fr.2 with
    | [] => some (sl.1 * mant)
    | e :: t =>
      if e = 'e' || e = 'E' then
        let es : Int × List Char :=
          match t with
          | '+' :: u => (1, u)
          | '-' :: u => (-1, u)
          | u => (1, u)
        let ed := es.2.takeWhile Char.isDigit
        let rest := es.2.dropWhile Char.isDigit
        if ed.isEmpty || !rest.isEmpty then none
        else some (sl.1 * mant * (10 : Rat) ^ (es.1 * (natOfDigits ed : Int)))
      else none

/-- Python `float(x)` on a JSON value: numbers pass through, booleans become
0/1, strings are parsed, everything else raises (`TypeError`, modelled as
`none` at call sites that catch it). -/
def pyFloat : JValue → Option Rat
  | .num q => some q
  | .bool b => some (if b then 1 else 0)
  | .str s => pyFloatOfString s
  | _ => none

/-! ## Structure validation (`extract_lab_data_with_gemini`, app.py lines 579-591)

The source iterates over the parsed array and keeps an element when
`all(key in item for key in ['test', 'value', 'unit', 'range', 'status'])`
holds and `float(item['value'])` succeeds.  Python's `in` works on dicts
(key test), strings (substring test) and lists (membership test) but raises
`TypeError` on numbers, booleans and `None`; that `TypeError` is *not*
caught by the inner `except (ValueError, TypeError)` (which only guards the
coercion/append statements) and instead aborts the whole extraction via the
`except` at line 593, which returns `[]`. -/

/-- The five keys required of a lab-result object (line 582). -/
def requiredKeys : List String := ["test", "value", "unit", "range", "status"]

/-- Python `key in item` for a JSON value: key lookup on objects, substring
test on strings, membership test on arrays, `TypeError` otherwise. -/
def pyKeyIn (item : JValue) (key : String) : Except Unit Bool :=
  match item with
  | .obj fs => .ok (fs.any (fun p => p.1 = key))
  | .str s => .ok (containsSub s.data key.data)
  | .arr xs => .ok (xs.any (fun v => match v with | .str t => t = key | _ => false))
  | _ => .error ()

/-- `all(key in item for key in requiredKeys)` with Python's short-circuit
evaluation (line 582). -/
def pyAllKeysIn (item : JValue) : List String → Except Unit Bool
  | [] => .ok true
  | k :: ks => do
    let b ← pyKeyIn item k
    if b then pyAllKeysIn item ks else .ok false

/-- Replace the `value` binding of a parsed object
(`item['value'] = float(item['value'])`, line 585). -/
def setValueField (fs : List (String × JValue)) (q : Rat) : List (String × JValue) :=
  fs.map (fun p => if p.1 = "value" then ("value", JValue.num q) else p)

/-- The body of the inner `try` at lines 584-588: evaluate
`float(item['value'])` and, on success, the element with its `value`
replaced.  `ValueError`/`TypeError` (non-numeric string, non-indexable
item, non-coercible value) yield `none`, which the source turns into
`continue`. -/
def coerceValueStep (item : JValue) : Option JValue :=
  match item with
  | .obj fs =>
    match List.lookup "value" fs with
    | some v => (pyFloat v).map (fun q => JValue.obj (setValueField fs q))
    | none => none
  | _ => none

/-- The validation loop of lines 580-588: process elements in order,
keeping coercible five-key elements; an uncaught `TypeError` from the key
test aborts the loop. -/
def validateLoop : List JValue → Except Unit (List JValue)
  | [] => .ok []
  | item :: rest => do
    let ok ← pyAllKeysIn item requiredKeys
    if ok then
      match coerceValueStep item with
      | some item' => do
        let tail ← validateLoop rest
        .ok (item' :: tail)
      | none => validateLoop rest
    else validateLoop rest

/-- Lines 579-591 together with the enclosing `except` at line 593: a
non-array parse result returns `[]` (line 591), and an exception escaping
the loop is caught and also returns `[]`. -/
def validateLabData (v : JValue) : List JValue :=
  match v with
  | .arr items =>
    match validateLoop items with
    | .ok l => l
    | .error _ => []
  | _ => []

/-! ## JSON recovery from the raw generation-service response
(`extract_lab_data_with_gemini`, app.py lines 553-573)

The source strips the response, then: if a fenced code block marker is
present it extracts the content between the first matching pair via
`re.search(r'```(?:json)?\s*([\s\S]*?)```', text)`; if the marker is
present but unpaired it falls back to `re.sub(r'```[^\n]*\n?', '', text)`
followed by `re.sub(r'\n?```', '', text)`; finally it slices from the first
`[` to the last `]` inclusive. -/

/-- The backquote character, U+0060. -/
def fenceChar : Char := Char.ofNat 96

/-- A markdown code-fence marker: three backquotes. -/
def fence : List Char := [fenceChar, fenceChar, fenceChar]

/-- The characters of the optional `json` language tag. -/
def jsonTag : List Char := ['j', 's', 'o', 'n']

/-- Drop the rest of the current line and the line's terminating newline if
present: the `[^\n]*\n?` part of the first fallback regex. -/
def dropLineRest (s : List Char) : List Char :=
  match s.dropWhile (fun c => !(c = '\n')) with
  | [] => []
  | _ :: t => t

/-- `re.sub(r'```[^\n]*\n?', '', s)`: remove every fence marker together
with the remainder of its line and the following newline, scanning left to
right (app.py line 565). -/
def subFenceLine (s : List Char) : List Char :=
  match s with
  | [] => []
  | c :: cs =>
    if fence.isPrefixOf (c :: cs) then subFenceLine (dropLineRest (cs.drop 2))
    else c :: subFenceLine cs
termination_by s.length
decreasing_by
  · have h1 : (dropLineRest (cs.drop 2)).length ≤ (cs.drop 2).length := by
      unfold dropLineRest
      have h := (List.dropWhile_sublist (l := cs.drop 2) (fun c => !(c = '\n'))).length_le
      cases hd : (cs.drop 2).dropWhile (fun c => !(c = '\n')) with
      | nil => simp
      | cons x t =>
        rw [hd] at h
        simp only [List.length_cons] at h
        show t.length ≤ (cs.drop 2).length
        omega
    have h2 := List.length_drop 2 cs
    simp only [List.length_cons]
    omega
  · simp

/-- `re.sub(r'\n?```', '', s)`: remove every fence marker and one newline
directly before it (app.py line 566). -/
def subBareFence (s : List Char) : List Char :=
  match s with
  | [] => []
  | c :: cs =>
    if c = '\n' && fence.isPrefixOf cs then subBareFence (cs.drop 3)
    else if fence.isPrefixOf (c :: cs) then subBareFence (cs.drop 2)
    else c :: subBareFence cs
termination_by s.length
decreasing_by
  · have := List.length_drop 3 cs
    simp only [List.length_cons]
    omega
  · have := List.length_drop 2 cs
    simp only [List.length_cons]
    omega
  · simp

/-- `re.search(r'```(?:json)?\s*([\s\S]*?)```', s)` (app.py line 560): the
leftmost match starts at the first fence marker; after it the engine
consumes an optional literal `json` tag, then a maximal whitespace run, and
the lazy group then extends to the next fence marker.  Returns the group,
or `none` when the search fails (no closing marker). -/
def fenceGroup (s : List Char) : Option (List Char) :=
  (findSubIdx s fence).bind (fun i =>
    let r := s.drop (i + 3)
    let r := if jsonTag.isPrefixOf r then r.drop 4 else r
    let r := r.dropWhile isPySpace
    (findSubIdx r fence).map (fun j => r.take j))

/-- The fence-handling step of lines 557-566 applied to the stripped
response text. -/
def fenceStage (t : List Char) : List Char :=
  if containsSub t fence then
    match fenceGroup t with
    | some g => pyStripChars g
    | none => subBareFence (subFenceLine t)
  else t

/-- Lines 569-573: find the first `[` and the last `]` and slice between
them inclusive; leave the text unchanged when either is missing. -/
def bracketSlice (t : List Char) : List Char :=
  let start? := findSubIdx t ['[']
  let stop? := (findSubIdx t.reverse [']']).map (fun k => t.length - 1 - k)
  match start?, stop? with
  | some i, some j => (t.drop i).take (j + 1 - i)
  | _, _ => t

/-- Lines 553-573 together: strip the raw response, recover from markdown
fencing, and slice to the outermost JSON array brackets. -/
def recoverCore (t : List Char) : List Char :=
  bracketSlice (fenceStage t)

/-- The full JSON-recovery step applied to `response.text`. -/
def recoverResponseText (raw : String) : String :=
  ⟨recoverCore (pyStripChars raw.data)⟩

/-! ## `extract_text_from_pdf` (app.py lines 174-213)

The three extraction libraries are external capabilities.  For one given
document, an environment records for each strategy whether its library is
importable, the per-page strings the strategy produces before a possible
exception, and whether the strategy raises.  A strategy that raises mid-way
has already appended its earlier pages to the shared `text` accumulator,
which the source never resets between strategies. -/

structure PdfEnv where
  /-- `PyPDF2` imported successfully (line 23). -/
  pypdf2Avail : Bool
  /-- The strings `page.extract_text()` returns, in order, before the point
  (if any) at which the PyPDF2 strategy raises. -/
  pypdf2Pages : List String
  /-- The PyPDF2 strategy raises after producing the pages above. -/
  pypdf2Raises : Bool
  /-- `pdfplumber` imported successfully (line 28). -/
  plumberAvail : Bool
  /-- The values `page.extract_text()` returns under pdfplumber; `none`
  models a page returning Python `None`. -/
  plumberPages : List (Option String)
  /-- The pdfplumber strategy raises after producing the pages above. -/
  plumberRaises : Bool
  /-- Both `pdf2image.convert_from_path` and `pytesseract` imported (line 33). -/
  ocrAvail : Bool
  /-- The strings `pytesseract.image_to_string(page)` returns, in order,
  before the point (if any) at which OCR raises. -/
  ocrPages : List String
  /-- The OCR strategy raises after producing the pages above. -/
  ocrRaises : Bool

/-- `text += page.extract_text() + "\n"` over a list of pages
(lines 183-184 and 207-208). -/
def concatPages : List String → String
  | [] => ""
  | p :: ps => p ++ "\n" ++ concatPages ps

/-- The pdfplumber page loop (lines 194-197): a falsy page text (Python
`None` or the empty string) is skipped, anything else is appended with a
newline. -/
def concatPlumberPages : List (Option String) → String
  | [] => ""
  | none :: ps => concatPlumberPages ps
  | some p :: ps => if p = "" then concatPlumberPages ps else p ++ "\n" ++ concatPlumberPages ps

/-- `extract_text_from_pdf` (lines 174-213).  `text` starts empty and is
only ever appended to; each strategy's early return fires when the strategy
is available, did not raise, and the *accumulated* text is non-empty after
stripping.  The OCR strategy returns the accumulated text whether or not it
raises (the `return text` at line 209 and the final `return text` at
line 213 return the same accumulator). -/
def extract_text_from_pdf (env : PdfEnv) : String :=
  let text := ""
  let text := if env.pypdf2Avail then text ++ concatPages env.pypdf2Pages else text
  if env.pypdf2Avail && !env.pypdf2Raises && stripTruthy text then text
  else
    let text := if env.plumberAvail then text ++ concatPlumberPages env.plumberPages else text
    if env.plumberAvail && !env.plumberRaises && stripTruthy text then text
    else
      let text := if env.ocrAvail then text ++ concatPages env.ocrPages else text
      text

/-- The text extraction the specification describes: the first strategy
that completes without exception and whose *own* output is non-empty after
stripping wins, and strategy outputs are never blended.  (Stated from the
spec's words, for comparison with `extract_text_from_pdf`.) -/
def extractTextFirstStrategyWins (env : PdfEnv) : String :=
  if env.pypdf2Avail && !env.pypdf2Raises && stripTruthy (concatPages env.pypdf2Pages) then
    concatPages env.pypdf2Pages
  else if env.plumberAvail && !env.plumberRaises
      && stripTruthy (concatPlumberPages env.plumberPages) then
    concatPlumberPages env.plumberPages
  else if env.ocrAvail && !env.ocrRaises && stripTruthy (concatPages env.ocrPages) then
    concatPages env.ocrPages
  else ""

/-! ## The generation service environment

`google.generativeai` and `json.loads` are external capabilities: the
environment records whether `GEMINI_API_KEY` is set (truthy), the outcome
of `genai.GenerativeModel(name).generate_content(prompt).text` for each
model name and prompt (`.error e` carries `str(e)`), and the outcome of
`json.loads` on each string. -/

structure GenService where
  /-- Truthiness of the `GEMINI_API_KEY` environment variable (line 46). -/
  apiKeyConfigured : Bool
  /-- `genai.GenerativeModel(name).generate_content(prompt).text`: either
  the response text or the raised exception's string. -/
  callModel : String → String → Except String String
  /-- `json.loads` on a string: a parsed value or a `JSONDecodeError`. -/
  jsonLoads : String → Except Unit JValue

/-! ## `extract_lab_data_with_gemini` (app.py lines 514-618) -/

/-- The extraction prompt text before the interpolated report text
(lines 517-543). -/
def extractionPromptHead : String :=
  "You are a medical data extraction specialist. Extract lab test results from the provided medical report text.\n\n"
  ++ "INSTRUCTIONS:\n"
  ++ "1. Extract ONLY laboratory test results with numerical values\n"
  ++ "2. For each test, extract: test name, patient value, unit, reference range, and status\n"
  ++ "3. Classify each result as NORMAL, SLIGHTLY_ABNORMAL, or CRITICAL based on reference ranges\n"
  ++ "4. Return ONLY valid JSON array format - no markdown, no explanations\n\n"
  ++ "JSON FORMAT REQUIRED:\n[\n  \x7b\n    \"test\": \"Test Name\",\n    \"value\": numeric_value,\n    \"unit\": \"unit\",\n    \"range\": \"reference_range\",\n    \"status\": \"NORMAL|SLIGHTLY_ABNORMAL|CRITICAL\",\n    \"explanation\": \"Brief explanation of what this test measures\"\n  \x7d\n]\n\n"
  ++ "CLASSIFICATION RULES:\n"
  ++ "- NORMAL: Value within reference range\n"
  ++ "- SLIGHTLY_ABNORMAL: Value 10-30% outside reference range\n"
  ++ "- CRITICAL: Value >30% outside reference range or clinically dangerous\n\n"
  ++ "MEDICAL REPORT TEXT:\n"

/-- The extraction prompt text after the interpolated report text
(line 545). -/
def extractionPromptTail : String := "\n\nExtract lab data as JSON array:"

/-- The f-string `system_prompt` of lines 517-545. -/
def extractionPrompt (text : String) : String :=
  extractionPromptHead ++ text ++ extractionPromptTail

/-- The hardcoded fallback demo data returned when no API key is
configured (lines 598-615). -/
def demoLabData : List JValue :=
  [ .obj [("test", .str "Glucose"), ("value", .num 110), ("unit", .str "mg/dL"),
          ("range", .str "70-100"), ("status", .str "SLIGHTLY_ABNORMAL"),
          ("explanation", .str "Blood sugar level - slightly elevated")],
    .obj [("test", .str "Cholesterol"), ("value", .num 280), ("unit", .str "mg/dL"),
          ("range", .str "<200"), ("status", .str "CRITICAL"),
          ("explanation", .str "Total cholesterol - high risk for heart disease")] ]

/-- `extract_lab_data_with_gemini` (lines 514-618): with an API key, call
the `gemini-2.0-flash` model once on the extraction prompt, recover a JSON
array slice from the raw response, parse it, and validate; a service
exception or a parse failure is caught by the `except` at line 593 and
yields `[]`.  Without an API key, return the fixed demo list. -/
def extract_lab_data_with_gemini (env : GenService) (text : String) : List JValue :=
  if env.apiKeyConfigured then
    match env.callModel "gemini-2.0-flash" (extractionPrompt text) with
    | .error _ => []
    | .ok raw =>
      match env.jsonLoads (recoverResponseText raw) with
      | .error _ => []
      | .ok v => validateLabData v
  else demoLabData

/-! ## `generate_gemini_response` (app.py lines 262-349) -/

/-- One entry of a session's `conversation_history`
(a `{'role': ..., 'content': ...}` dict). -/
structure Turn where
  role : String
  content : String
deriving DecidableEq

/-- One line of the rendered conversation history (lines 313-315). -/
def renderTurn (t : Turn) : String :=
  (if t.role = "user" then "Patient" else "Assistant") ++ ": " ++ t.content ++ "\n"

/-- Python `l[-10:]` on the conversation history (line 313). -/
def lastTen (l : List Turn) : List Turn := l.drop (l.length - 10)

/-- The chat system prompt before the interpolated language
(lines 266-270). -/
def chatPromptHead : String :=
  "\nYou are a medical assistant that simplifies medical reports for patients.\n\n"
  ++ "### Guidelines\n"
  ++ "1. Respond in "

/-- The chat system prompt between the interpolated language and the
interpolated report text (lines 270-306). -/
def chatPromptMid : String :=
  ".\n2. Use **plain, to-the-point explanations** (Gemini-style).\n"
  ++ "   - Example: \"Your vitamin D is low → may cause tiredness and weak bones.\"\n"
  ++ "3. For lab values, categorize as:\n"
  ++ "   - NORMAL, SLIGHTLY_ABNORMAL, CRITICAL\n"
  ++ "   - Format: **[TYPE:value]**\n"
  ++ "4. After each result:\n"
  ++ "   - Explain in plain English\n"
  ++ "   - Cite a trusted source (Mayo Clinic, CDC, NIH, etc.)\n"
  ++ "   - Give simple lifestyle advice if relevant\n"
  ++ "5. Be empathetic but concise.\n"
  ++ "6. Always advise consulting a healthcare provider.\n"
  ++ "7. If user asks unrelated questions → redirect to the report.\n\n"
  ++ "### Formatting\n"
  ++ "- Use ## for main sections, ### for subsections\n"
  ++ "- Bold key terms and values\n"
  ++ "- Bullets for lists\n"
  ++ "- Plain English + Lifestyle tips under each abnormal finding\n\n"
  ++ "### Example\n"
  ++ "## Your Test Results\n\n"
  ++ "- **Glucose**: **[SLIGHTLY_ABNORMAL:110 mg/dL]**  \n"
  ++ "  *Plain English:* Slightly high blood sugar, may mean risk of diabetes.  \n"
  ++ "  *(Source: CDC)*  \n"
  ++ "  *Lifestyle Tip:* Cut down on sweets, walk daily.\n\n"
  ++ "- **Cholesterol**: **[CRITICAL:280 mg/dL]**  \n"
  ++ "  *Plain English:* Very high cholesterol, raises heart disease risk.  \n"
  ++ "  *(Source: AHA)*  \n"
  ++ "  *Lifestyle Tip:* Eat more vegetables, avoid fried foods, see your doctor soon.\n\n"
  ++ "---\n\n"
  ++ "MEDICAL REPORT CONTEXT:\n"

/-- The chat system prompt after the interpolated report text
(lines 306-309). -/
def chatPromptAfterReport : String := "\n\nCONVERSATION HISTORY:\n"

/-- The full chat prompt (lines 266-317): persona text, report text, the
last ten conversation turns rendered as Patient/Assistant lines, and the
fresh user message. -/
def buildChatPrompt (pdf_text : String) (history : List Turn)
    (user_message language : String) : String :=
  chatPromptHead ++ language ++ chatPromptMid ++ pdf_text ++ chatPromptAfterReport
  ++ String.join ((lastTen history).map renderTurn)
  ++ "\nPatient: " ++ user_message ++ "\nAssistant:"

/-- The fallback reply when `GEMINI_API_KEY` is unset (line 346). -/
def notConfiguredReply (language : String) : String :=
  "I understand your question about the medical report. However, the Gemini API key is not configured. Please set up your API key to get personalized medical explanations in "
  ++ language
  ++ ". In the meantime, I recommend discussing your report with your healthcare provider."

/-- The user-facing apology built by the `except` handler at line 349,
embedding `str(e)`. -/
def apologyReply (errorDetail : String) : String :=
  "I apologize, but I'm having trouble generating a response right now. Please try again or consult with your healthcare provider. Error: "
  ++ errorDetail

/-- `generate_gemini_response` (lines 262-349): build the prompt; with an
API key, try `gemini-2.0-flash`, then `gemini-1.5-flash`, then
`gemini-1.5-pro`, then `gemini-pro` on the *same* prompt, returning the
first success.  If all four fail, the source re-raises the first model's
exception (`raise model_error`, line 343), which the outer handler turns
into the apology string embedding that first error.  Without an API key it
returns the fixed not-configured reply. -/
def generate_gemini_response (env : GenService) (pdf_text : String)
    (conversation_history : List Turn) (user_message language : String) : String :=
  let system_prompt := buildChatPrompt pdf_text conversation_history user_message language
  if env.apiKeyConfigured then
    match env.callModel "gemini-2.0-flash" system_prompt with
    | .ok r => r
    | .error e0 =>
      match env.callModel "gemini-1.5-flash" system_prompt with
      | .ok r => r
      | .error _ =>
        match env.callModel "gemini-1.5-pro" system_prompt with
        | .ok r => r
        | .error _ =>
          match env.callModel "gemini-pro" system_prompt with
          | .ok r => r
          | .error _ => apologyReply e0
  else notConfiguredReply language

/-! ## The session store and the `/chat` route (app.py lines 215-260) -/

/-- One record of the process-wide `session_data` dict. -/
structure SessionRec where
  pdf_text : String
  conversation_history : List Turn
  language : String
  lab_data : List JValue
  upload_time : String
  filename : String

/-- The process-wide `session_data` mapping, as an association list keyed
by session id (keys unique, as in a Python dict). -/
def Store : Type := List (String × SessionRec)

/-- Membership test `session_id in session_data`. -/
def Store.lookup (st : Store) (k : String) : Option SessionRec :=
  List.lookup k st

/-- In-place mutation of the record stored under an existing key. -/
def Store.set (st : Store) (k : String) (v : SessionRec) : Store :=
  List.map (fun p => if p.1 = k then (k, v) else p) st

/-- The conversation update of lines 244-249: append the user turn and the
assistant turn, then truncate to the most recent 20 entries when the list
exceeds 20. -/
def chatAppendTruncate (hist : List Turn) (userMsg response : String) : List Turn :=
  let h := hist ++ [⟨"user", userMsg⟩, ⟨"assistant", response⟩]
  if h.length > 20 then h.drop (h.length - 20) else h

/-- The outcome of the `/chat` route body: a successful reply or an error
payload with its HTTP status code. -/
inductive ChatResult where
  | ok (response : String)
  | err (message : String) (code : Nat)
deriving DecidableEq

/-- The `/chat` route body (lines 215-257), after JSON-field extraction:
`session_id` and `language` as sent (absent fields modelled by `""` and
the `'English'` default), `message` stripped at line 224.  Missing
session-id/message are rejected first (line 227), then an unknown session
id (line 230); otherwise the language is updated, a reply is generated,
and the capped conversation is written back.  Returns the response
payload together with the store after the request. -/
def chatRoute (env : GenService) (store : Store)
    (session_id message language : String) : ChatResult × Store :=
  let msg := pyStripStr message
  if session_id = "" || msg = "" then
    (.err "Session ID and message are required" 400, store)
  else
    match store.lookup session_id with
    | none => (.err "Session not found. Please upload a PDF first." 400, store)
    | some rec =>
      let rec1 : SessionRec := { rec with language := language }
      let store1 := store.set session_id rec1
      let response := generate_gemini_response env rec1.pdf_text rec1.conversation_history msg language
      let hist := chatAppendTruncate rec1.conversation_history msg response
      let store2 := store1.set session_id { rec1 with conversation_history := hist }
      (.ok response, store2)

/-! ## `calculate_lab_summary` (app.py lines 620-638) -/

/-- The summary dict built by `calculate_lab_summary`. -/
structure LabSummary where
  total_tests : Nat
  normal : Nat
  slightly_abnormal : Nat
  critical : Nat
deriving DecidableEq

/-- Python `str.upper()` (ASCII; the statuses the pipeline compares are
ASCII). -/
def pyUpper (s : String) : String := ⟨s.data.map Char.toUpper⟩

/-- `test.get('status', '').upper()` (line 630): `.get` on a non-dict and
`.upper()` on a non-string raise `AttributeError` (modelled as the error
case); a missing key defaults to `''`. -/
def pyGetStatusUpper (t : JValue) : Except Unit String :=
  match t with
  | .obj fs =>
    match List.lookup "status" fs with
    | some (.str s) => .ok (pyUpper s)
    | some _ => .error ()
    | none => .ok (pyUpper "")
  | _ => .error ()

/-- The counting loop of lines 629-636. -/
def statusBuckets : List JValue → Except Unit (Nat × Nat × Nat)
  | [] => .ok (0, 0, 0)
  | t :: ts => do
    let s ← pyGetStatusUpper t
    let b ← statusBuckets ts
    if s = "NORMAL" then .ok (b.1 + 1, b.2.1, b.2.2)
    else if s = "SLIGHTLY_ABNORMAL" then .ok (b.1, b.2.1 + 1, b.2.2)
    else if s = "CRITICAL" then .ok (b.1, b.2.1, b.2.2 + 1)
    else .ok b

/-- `calculate_lab_summary` (lines 620-638): `total_tests` is the list
length; the three bucket counters are incremented by the uppercased status
comparisons. -/
def calculate_lab_summary (lab_data : List JValue) : Except Unit LabSummary :=
  (statusBuckets lab_data).map (fun b =>
    { total_tests := lab_data.length, normal := b.1,
      slightly_abnormal := b.2.1, critical := b.2.2 })

/-! ## Claim-side definitions used to state the properties -/

/-- A record whose `status` field, when read the way
`calculate_lab_summary` reads it, does not raise: the record is an object
and its `status` value, if present, is a string. -/
def statusStringOk (t : JValue) : Bool :=
  match t with
  | .obj fs =>
    match List.lookup "status" fs with
    | some (.str _) => true
    | some _ => false
    | none => true
  | _ => false

/-- The case-insensitive normalisation of a record's status: the uppercased
status string, or `""` when absent. -/
def normStatus (t : JValue) : String :=
  match t with
  | .obj fs =>
    match List.lookup "status" fs with
    | some (.str s) => pyUpper s
    | _ => ""
  | _ => ""

/-- How many records of a list normalise to the given status. -/
def countStatus (l : List JValue) (k : String) : Nat :=
  (l.filter (fun t => normStatus t = k)).length

/-- A five-record example list: two NORMAL (one lowercase), one
SLIGHTLY_ABNORMAL, one CRITICAL (mixed case) and one unrecognized
status. -/
def summaryExample : List JValue :=
  [ .obj [("test", .str "A"), ("status", .str "normal")],
    .obj [("test", .str "B"), ("status", .str "NORMAL")],
    .obj [("test", .str "C"), ("status", .str "slightly_abnormal")],
    .obj [("test", .str "D"), ("status", .str "Critical")],
    .obj [("test", .str "E"), ("status", .str "pending")] ]

/-- A document on which PyPDF2 succeeds but extracts only an empty text
layer while pdfplumber extracts real text. -/
def blendEnv : PdfEnv :=
  { pypdf2Avail := true, pypdf2Pages := [""], pypdf2Raises := false,
    plumberAvail := true, plumberPages := [some "hello"], plumberRaises := false,
    ocrAvail := false, ocrPages := [], ocrRaises := false }

/-- A document for which only OCR is available and OCR recognises no
characters on the single page. -/
def ocrOnlyEnv : PdfEnv :=
  { pypdf2Avail := false, pypdf2Pages := [], pypdf2Raises := false,
    plumberAvail := false, plumberPages := [], plumberRaises := false,
    ocrAvail := true, ocrPages := [""], ocrRaises := false }

/-- A document for which every strategy yields only whitespace (pdfplumber
additionally raising mid-way). -/
def wsEnv : PdfEnv :=
  { pypdf2Avail := true, pypdf2Pages := ["", "  "], pypdf2Raises := false,
    plumberAvail := true, plumberPages := [none, some ""], plumberRaises := true,
    ocrAvail := true, ocrPages := ["\t"], ocrRaises := false }

/-- A JSON value on which Python's `in` containment test does not raise:
an object, an array or a string. -/
def containerLike (v : JValue) : Bool :=
  match v with
  | .obj _ => true
  | .arr _ => true
  | .str _ => true
  | _ => false

/-- The Boolean outcome of `key in item` on a container-like value. -/
def hasKeyB (item : JValue) (key : String) : Bool :=
  match item with
  | .obj fs => fs.any (fun p => p.1 = key)
  | .str s => containsSub s.data key.data
  | .arr xs => xs.any (fun v => match v with | .str t => t = key | _ => false)
  | _ => false

/-- The element filter the claim describes: keep exactly the array elements
that are structurally objects containing all five required keys and whose
`value` coerces to a float (the kept element carrying the coerced value). -/
def keepsValidElem (x : JValue) : Option JValue :=
  match x with
  | .obj fs =>
    if requiredKeys.all (fun k => fs.any (fun p => p.1 = k)) then
      coerceValueStep (.obj fs)
    else none
  | _ => none

/-- A well-formed five-key lab-result element. -/
def labItemGood : JValue :=
  .obj [("test", .str "Glucose"), ("value", .num 110), ("unit", .str "mg/dL"),
        ("range", .str "70-100"), ("status", .str "NORMAL")]

/-- A mixed array of container elements: one valid, one string, one with a
non-coercible value, one missing required keys. -/
def mixedItems : List JValue :=
  [ labItemGood,
    .str "no keys here",
    .obj [("test", .str "X"), ("value", .str "N/A"), ("unit", .str "u"),
          ("range", .str "r"), ("status", .str "NORMAL")],
    .obj [("test", .str "Y"), ("value", .num 5)] ]

/-- `n` numbered conversation turns, used to exercise the history cap on a
concrete session. -/
def turnSeq (n : Nat) : List Turn :=
  (List.range n).map (fun i => Turn.mk "user" (toString i))

/-- A demo session record. -/
def demoRec : SessionRec :=
  { pdf_text := "Glucose: 110 mg/dL", conversation_history := [],
    language := "English", lab_data := [], upload_time := "t0", filename := "r.pdf" }

/-- A generation-service environment with no API key and failing oracles. -/
def offlineEnv : GenService :=
  { apiKeyConfigured := false,
    callModel := fun _ _ => .error "offline",
    jsonLoads := fun _ => .error () }

/-- A generation-service environment with an API key whose every model call
and parse fails. -/
def failingEnv : GenService :=
  { apiKeyConfigured := true,
    callModel := fun _ _ => .error "boom",
    jsonLoads := fun _ => .error () }

/-! ## Supporting lemmas -/

theorem store_set_lookup (st : Store) (k : String) (v r : SessionRec)
    (h : st.lookup k = some r) : (st.set k v).lookup k = some v := by
  induction st with
  | nil => simp [Store.lookup] at h
  | cons p ps ih =>
    obtain ⟨a, b⟩ := p
    by_cases hk : k = a
    · subst hk
      show (List.map _ ((k, b) :: ps)).lookup k = some v
      rw [List.map_cons, if_pos rfl]
      exact List.lookup_cons_self
    · have hba : (k == a) = false := by simpa using hk
      simp only [Store.lookup, List.lookup_cons, hba] at h
      show (List.map _ ((a, b) :: ps)).lookup k = some v
      rw [List.map_cons, if_neg (fun e => hk ((show (a, b).1 = a from rfl) ▸ e).symm)]
      rw [List.lookup_cons, hba]
      exact ih h

theorem pyGetStatusUpper_ok (t : JValue) (h : statusStringOk t = true) :
    pyGetStatusUpper t = .ok (normStatus t) := by
  cases t with
  | obj fs =>
    simp only [pyGetStatusUpper, statusStringOk, normStatus] at *
    cases hl : List.lookup "status" fs with
    | none => rfl
    | some v =>
      rw [hl] at h
      cases v <;> simp_all
  | null => simp [statusStringOk] at h
  | bool b => simp [statusStringOk] at h
  | num q => simp [statusStringOk] at h
  | str s => simp [statusStringOk] at h
  | arr xs => simp [statusStringOk] at h

theorem statusBuckets_counts (l : List JValue) (h : ∀ t ∈ l, statusStringOk t = true) :
    statusBuckets l =
      .ok (countStatus l "NORMAL", countStatus l "SLIGHTLY_ABNORMAL", countStatus l "CRITICAL") := by
  induction l with
  | nil => rfl
  | cons t ts ih =>
    have ht := h t (List.mem_cons_self t ts)
    have hts : ∀ x ∈ ts, statusStringOk x = true := fun x hx => h x (List.mem_cons_of_mem _ hx)
    simp only [statusBuckets, pyGetStatusUpper_ok t ht, ih hts]
    simp only [countStatus, List.filter_cons]
    have d1 : ("NORMAL" : String) ≠ "SLIGHTLY_ABNORMAL" := by decide
    have d2 : ("NORMAL" : String) ≠ "CRITICAL" := by decide
    have d3 : ("SLIGHTLY_ABNORMAL" : String) ≠ "CRITICAL" := by decide
    simp only [Bind.bind, Except.bind]
    by_cases h1 : normStatus t = "NORMAL"
    · simp [h1, d1, d2]
    · by_cases h2 : normStatus t = "SLIGHTLY_ABNORMAL"
      · simp [h1, h2, d1.symm, d3]
      · by_cases h3 : normStatus t = "CRITICAL"
        · simp [h1, h2, h3, d2.symm, d3.symm]
        · simp [h1, h2, h3]

/-! ## The claims -/

/-- C2: for every list of lab-result records (objects whose `status`, if
present, is a string), `calculate_lab_summary` returns `total_tests` equal
to the list length and bucket counts obtained by case-insensitive
normalisation of the status to NORMAL / SLIGHTLY_ABNORMAL / CRITICAL; an
unrecognized status increments no bucket but is counted in the total.  In
particular the empty list yields all-zero counts and the five-record
example (2 NORMAL, 1 SLIGHTLY_ABNORMAL, 1 CRITICAL, 1 unrecognized) yields
`{total: 5, normal: 2, slightly_abnormal: 1, critical: 1}`. -/
theorem c2_lab_summary_counts :
    (∀ l : List JValue, (∀ t ∈ l, statusStringOk t = true) →
      calculate_lab_summary l =
        .ok { total_tests := l.length,
              normal := countStatus l "NORMAL",
              slightly_abnormal := countStatus l "SLIGHTLY_ABNORMAL",
              critical := countStatus l "CRITICAL" })
    ∧ calculate_lab_summary [] =
        .ok { total_tests := 0, normal := 0, slightly_abnormal := 0, critical := 0 }
    ∧ calculate_lab_summary summaryExample =
        .ok { total_tests := 5, normal := 2, slightly_abnormal := 1, critical := 1 } := by
  refine ⟨fun l h => ?_, rfl, rfl⟩
  simp only [calculate_lab_summary, statusBuckets_counts l h, Except.map]

/-- C7: after each conversation append performed by the chat operation,
only the most recent 20 turns are retained (the result is the
`hist.length + 2 - 20`-dropped suffix of the appended list, of length
`min (hist.length + 2) 20`, so older turns are discarded oldest first and
the retained turns keep their original relative order); the capped history
is what the store holds after the request; and after a total of 25
appended turns exactly the most recent 20 remain, in order. -/
theorem c7_conversation_cap :
    (∀ (hist : List Turn) (u a : String),
        chatAppendTruncate hist u a
          = (hist ++ [Turn.mk "user" u, Turn.mk "assistant" a]).drop (hist.length + 2 - 20)
        ∧ (chatAppendTruncate hist u a).length = min (hist.length + 2) 20
        ∧ chatAppendTruncate hist u a <:+ hist ++ [Turn.mk "user" u, Turn.mk "assistant" a])
    ∧ (∀ (env : GenService) (store : Store) (sid m lang : String) (rec : SessionRec),
        sid ≠ "" → pyStripStr m ≠ "" → store.lookup sid = some rec →
        ((chatRoute env store sid m lang).2).lookup sid
          = some { rec with
                   language := lang,
                   conversation_history :=
                     chatAppendTruncate rec.conversation_history (pyStripStr m)
                       (generate_gemini_response env rec.pdf_text rec.conversation_history
                         (pyStripStr m) lang) })
    ∧ chatAppendTruncate (turnSeq 23) "23" "24"
        = (turnSeq 23).drop 5 ++ [Turn.mk "user" "23", Turn.mk "assistant" "24"] := by
  refine ⟨fun hist u a => ?_, fun env store sid m lang rec h1 h2 h3 => ?_, ?_⟩
  · have hL : (hist ++ [Turn.mk "user" u, Turn.mk "assistant" a]).length = hist.length + 2 := by
      simp
    by_cases hc : (hist ++ [Turn.mk "user" u, Turn.mk "assistant" a]).length > 20
    · rw [hL] at hc
      refine ⟨?_, ?_, ?_⟩
      · simp only [chatAppendTruncate, hL, if_pos hc]
      · simp only [chatAppendTruncate, hL, if_pos hc, List.length_drop, List.length_append,
          List.length_cons, List.length_nil]
        omega
      · simp only [chatAppendTruncate, hL, if_pos hc]
        exact List.drop_suffix _ _
    · rw [hL] at hc
      have h0 : hist.length + 2 - 20 = 0 := by omega
      refine ⟨?_, ?_, ?_⟩
      · simp only [chatAppendTruncate, hL, if_neg hc, h0, List.drop_zero]
      · simp only [chatAppendTruncate, hL, if_neg hc, List.length_append, List.length_cons,
          List.length_nil]
        omega
      · simp only [chatAppendTruncate, hL, if_neg hc]
        exact List.suffix_refl _
  · simp only [chatRoute, h3]
    simp only [decide_eq_false h1, decide_eq_false h2, Bool.or_self, if_neg Bool.false_ne_true]
    exact store_set_lookup _ sid _ _ (store_set_lookup store sid _ rec h3)
  · rfl

/-- Witness for C7: a chat request against a concrete one-session store
leaves the capped, order-preserving history in the store. -/
theorem c7_witness :
    ((chatRoute offlineEnv [("s1", demoRec)] "s1" " hi " "English").2).lookup "s1"
      = some { demoRec with
               language := "English",
               conversation_history :=
                 chatAppendTruncate demoRec.conversation_history (pyStripStr " hi ")
                   (generate_gemini_response offlineEnv demoRec.pdf_text
                     demoRec.conversation_history (pyStripStr " hi ") "English") } :=
  c7_conversation_cap.2.1 offlineEnv [("s1", demoRec)] "s1" " hi " "English" demoRec
    (by decide) (by decide) rfl

/-- C8: a chat request whose (non-empty) session id is not in the store is
answered with the "not found" error and leaves the store exactly as it
was: no session is created and no record is mutated. -/
theorem c8_unknown_session :
    ∀ (env : GenService) (store : Store) (sid m lang : String),
      sid ≠ "" → pyStripStr m ≠ "" → store.lookup sid = none →
      chatRoute env store sid m lang
        = (.err "Session not found. Please upload a PDF first." 400, store) := by
  intro env store sid m lang h1 h2 h3
  simp only [chatRoute, h3]
  simp only [decide_eq_false h1, decide_eq_false h2, Bool.or_self, if_neg Bool.false_ne_true]

/-- Witness for C8: a concrete unknown session id against a concrete
non-empty store. -/
theorem c8_witness :
    chatRoute offlineEnv [("s1", demoRec)] "missing" "hello" "English"
      = (.err "Session not found. Please upload a PDF first." 400, [("s1", demoRec)]) :=
  c8_unknown_session offlineEnv [("s1", demoRec)] "missing" "hello" "English"
    (by decide) (by decide) rfl

set_option maxRecDepth 8192 in
/-- C9: `generate_gemini_response` never raises: with a configured key it
returns the first success of trying `gemini-2.0-flash`, `gemini-1.5-flash`,
`gemini-1.5-pro` and `gemini-pro` in order on the same prompt; when all
four fail it returns the deterministic apology embedding the (first) error
detail; without a configured key it returns the deterministic
not-configured reply, and the two fallback wordings are distinct for all
languages and error details. -/
theorem c9_generation_fallbacks :
    (∀ (env : GenService) (pt : String) (hist : List Turn) (msg lang r : String),
        env.apiKeyConfigured = true →
        env.callModel "gemini-2.0-flash" (buildChatPrompt pt hist msg lang) = .ok r →
        generate_gemini_response env pt hist msg lang = r)
    ∧ (∀ (env : GenService) (pt : String) (hist : List Turn) (msg lang e0 r : String),
        env.apiKeyConfigured = true →
        env.callModel "gemini-2.0-flash" (buildChatPrompt pt hist msg lang) = .error e0 →
        env.callModel "gemini-1.5-flash" (buildChatPrompt pt hist msg lang) = .ok r →
        generate_gemini_response env pt hist msg lang = r)
    ∧ (∀ (env : GenService) (pt : String) (hist : List Turn) (msg lang e0 e1 r : String),
        env.apiKeyConfigured = true →
        env.callModel "gemini-2.0-flash" (buildChatPrompt pt hist msg lang) = .error e0 →
        env.callModel "gemini-1.5-flash" (buildChatPrompt pt hist msg lang) = .error e1 →
        env.callModel "gemini-1.5-pro" (buildChatPrompt pt hist msg lang) = .ok r →
        generate_gemini_response env pt hist msg lang = r)
    ∧ (∀ (env : GenService) (pt : String) (hist : List Turn) (msg lang e0 e1 e2 r : String),
        env.apiKeyConfigured = true →
        env.callModel "gemini-2.0-flash" (buildChatPrompt pt hist msg lang) = .error e0 →
        env.callModel "gemini-1.5-flash" (buildChatPrompt pt hist msg lang) = .error e1 →
        env.callModel "gemini-1.5-pro" (buildChatPrompt pt hist msg lang) = .error e2 →
        env.callModel "gemini-pro" (buildChatPrompt pt hist msg lang) = .ok r →
        generate_gemini_response env pt hist msg lang = r)
    ∧ (∀ (env : GenService) (pt : String) (hist : List Turn) (msg lang e0 e1 e2 e3 : String),
        env.apiKeyConfigured = true →
        env.callModel "gemini-2.0-flash" (buildChatPrompt pt hist msg lang) = .error e0 →
        env.callModel "gemini-1.5-flash" (buildChatPrompt pt hist msg lang) = .error e1 →
        env.callModel "gemini-1.5-pro" (buildChatPrompt pt hist msg lang) = .error e2 →
        env.callModel "gemini-pro" (buildChatPrompt pt hist msg lang) = .error e3 →
        generate_gemini_response env pt hist msg lang = apologyReply e0)
    ∧ (∀ (env : GenService) (pt : String) (hist : List Turn) (msg lang : String),
        env.apiKeyConfigured = false →
        generate_gemini_response env pt hist msg lang = notConfiguredReply lang)
    ∧ (∀ lang e : String, notConfiguredReply lang ≠ apologyReply e) := by
  refine ⟨?_, ?_, ?_, ?_, ?_, ?_, ?_⟩
  · intro env pt hist msg lang r hk h0
    simp [generate_gemini_response, hk, h0]
  · intro env pt hist msg lang e0 r hk h0 h1
    simp [generate_gemini_response, hk, h0, h1]
  · intro env pt hist msg lang e0 e1 r hk h0 h1 h2
    simp [generate_gemini_response, hk, h0, h1, h2]
  · intro env pt hist msg lang e0 e1 e2 r hk h0 h1 h2 h3
    simp [generate_gemini_response, hk, h0, h1, h2, h3]
  · intro env pt hist msg lang e0 e1 e2 e3 hk h0 h1 h2 h3
    simp [generate_gemini_response, hk, h0, h1, h2, h3]
  · intro env pt hist msg lang hk
    simp [generate_gemini_response, hk]
  · intro lang e h
    have hd := congrArg (fun s : String => s.data[2]?) h
    simp only [notConfiguredReply, apologyReply, String.data_append] at hd
    rw [List.getElem?_append_left (by
          rw [List.length_append]
          exact Nat.lt_of_lt_of_le (by decide) (Nat.le_add_right _ _))] at hd
    rw [List.getElem?_append_left (by decide)] at hd
    rw [List.getElem?_append_left (by decide)] at hd
    exact absurd hd (by decide)

/-- Witness for C9: with every model call failing, the reply is the
apology embedding the first error detail. -/
theorem c9_witness :
    generate_gemini_response failingEnv "report" [] "question" "English"
      = apologyReply "boom" :=
  c9_generation_fallbacks.2.2.2.2.1 failingEnv "report" [] "question" "English"
    "boom" "boom" "boom" "boom" rfl rfl rfl rfl rfl

/-- C10: with no generation-service API key configured,
`extract_lab_data_with_gemini` does not return the empty list: for every
input text it returns the fixed two-element demo list (a SLIGHTLY_ABNORMAL
Glucose record with value 110 and a CRITICAL Cholesterol record with value
280), independent of the input text. -/
theorem c10_demo_data_without_key :
    ∀ (env : GenService) (text : String), env.apiKeyConfigured = false →
      extract_lab_data_with_gemini env text = demoLabData
      ∧ demoLabData ≠ []
      ∧ demoLabData =
          [ .obj [("test", .str "Glucose"), ("value", .num 110), ("unit", .str "mg/dL"),
                  ("range", .str "70-100"), ("status", .str "SLIGHTLY_ABNORMAL"),
                  ("explanation", .str "Blood sugar level - slightly elevated")],
            .obj [("test", .str "Cholesterol"), ("value", .num 280), ("unit", .str "mg/dL"),
                  ("range", .str "<200"), ("status", .str "CRITICAL"),
                  ("explanation", .str "Total cholesterol - high risk for heart disease")] ] := by
  intro env text h
  refine ⟨?_, by simp [demoLabData], rfl⟩
  simp [extract_lab_data_with_gemini, h]

/-- Witness for C10: the concrete keyless environment on a concrete text. -/
theorem c10_witness :
    extract_lab_data_with_gemini offlineEnv "Hemoglobin 13.5 g/dL (13-17)" = demoLabData :=
  (c10_demo_data_without_key offlineEnv "Hemoglobin 13.5 g/dL (13-17)" rfl).1

/-- C6: `extract_lab_data_with_gemini` never raises to its caller: an
exception in the generation-service call yields `[]`; a JSON-parse failure
on the recovered slice yields `[]` with no second parse attempt; and a
successful parse yields the validated list (value-coercion exceptions are
handled inside validation), so every outcome is a returned value. -/
theorem c6_extraction_never_raises :
    ∀ (env : GenService) (text : String),
      (∀ e, env.apiKeyConfigured = true →
        env.callModel "gemini-2.0-flash" (extractionPrompt text) = .error e →
        extract_lab_data_with_gemini env text = [])
      ∧ (∀ raw, env.apiKeyConfigured = true →
        env.callModel "gemini-2.0-flash" (extractionPrompt text) = .ok raw →
        env.jsonLoads (recoverResponseText raw) = .error () →
        extract_lab_data_with_gemini env text = [])
      ∧ (∀ raw v, env.apiKeyConfigured = true →
        env.callModel "gemini-2.0-flash" (extractionPrompt text) = .ok raw →
        env.jsonLoads (recoverResponseText raw) = .ok v →
        extract_lab_data_with_gemini env text = validateLabData v) := by
  intro env text
  refine ⟨?_, ?_, ?_⟩
  · intro e hk hc
    simp [extract_lab_data_with_gemini, hk, hc]
  · intro raw hk hc hj
    simp [extract_lab_data_with_gemini, hk, hc, hj]
  · intro raw v hk hc hj
    simp [extract_lab_data_with_gemini, hk, hc, hj]

/-- Witness for C6: a concrete configured environment whose service call
fails returns the empty list. -/
theorem c6_witness :
    extract_lab_data_with_gemini failingEnv "Glucose 110" = [] :=
  (c6_extraction_never_raises failingEnv "Glucose 110").1 "boom" rfl rfl

/-- Witness for C2: the general count statement applied to the concrete
five-record example. -/
theorem c2_witness :
    calculate_lab_summary summaryExample =
      .ok { total_tests := summaryExample.length,
            normal := countStatus summaryExample "NORMAL",
            slightly_abnormal := countStatus summaryExample "SLIGHTLY_ABNORMAL",
            critical := countStatus summaryExample "CRITICAL" } :=
  c2_lab_summary_counts.1 summaryExample (by decide)

theorem pyKeyIn_container (x : JValue) (hx : containerLike x = true) (k : String) :
    pyKeyIn x k = .ok (hasKeyB x k) := by
  cases x <;> simp_all [containerLike, pyKeyIn, hasKeyB]

theorem pyAllKeysIn_container (x : JValue) (hx : containerLike x = true) :
    ∀ ks : List String, pyAllKeysIn x ks = .ok (ks.all (hasKeyB x)) := by
  intro ks
  induction ks with
  | nil => rfl
  | cons k ks ih =>
    simp only [pyAllKeysIn, pyKeyIn_container x hx k, List.all_cons, Bind.bind, Except.bind]
    by_cases hb : hasKeyB x k
    · simp [hb, ih]
    · simp [hb]

theorem validateLoop_containers (items : List JValue)
    (h : ∀ x ∈ items, containerLike x = true) :
    validateLoop items = .ok (items.filterMap keepsValidElem) := by
  induction items with
  | nil => rfl
  | cons x xs ih =>
    have hx := h x (List.mem_cons_self x xs)
    have hxs : ∀ y ∈ xs, containerLike y = true := fun y hy => h y (List.mem_cons_of_mem _ hy)
    simp only [validateLoop, pyAllKeysIn_container x hx, Bind.bind, Except.bind,
      List.filterMap_cons]
    cases x with
    | obj fs =>
      by_cases hall : requiredKeys.all (fun k => fs.any (fun p => p.1 = k)) = true
      · have hall' : requiredKeys.all (hasKeyB (.obj fs)) = true := by
          simpa [hasKeyB] using hall
        rw [hall']
        simp only [if_pos rfl]
        cases hc : coerceValueStep (.obj fs) with
        | some y =>
          simp [keepsValidElem, hall, hc, ih hxs, Bind.bind, Except.bind]
        | none =>
          simp [keepsValidElem, hall, hc, ih hxs]
      · have hall' : requiredKeys.all (hasKeyB (.obj fs)) = false := by
          simpa [hasKeyB] using hall
        rw [hall']
        simp [keepsValidElem, hall, ih hxs]
    | str s =>
      cases hb : requiredKeys.all (hasKeyB (.str s)) with
      | true =>
        have hc : coerceValueStep (.str s) = none := rfl
        simp [keepsValidElem, hc, ih hxs]
      | false =>
        simp [keepsValidElem, ih hxs]
    | arr ys =>
      cases hb : requiredKeys.all (hasKeyB (.arr ys)) with
      | true =>
        have hc : coerceValueStep (.arr ys) = none := rfl
        simp [keepsValidElem, hc, ih hxs]
      | false =>
        simp [keepsValidElem, ih hxs]
    | null => simp [containerLike] at hx
    | bool b => simp [containerLike] at hx
    | num q => simp [containerLike] at hx

/-- C1 counterexample: the claim promises that in the parsed array
`[labItemGood, 5]` the invalid element `5` is dropped while the valid
sibling is still returned; the code instead raises `TypeError` on
`'test' in 5`, caught by the outer handler, and returns `[]`. -/
theorem c1_counterexample :
    validateLabData (.arr [labItemGood, .num 5]) = []
    ∧ keepsValidElem labItemGood = some labItemGood
    ∧ ¬ validateLabData (.arr [labItemGood, .num 5]) = [labItemGood] := by
  refine ⟨rfl, rfl, fun h => ?_⟩
  have h0 : validateLabData (.arr [labItemGood, .num 5]) = [] := rfl
  rw [h0] at h
  exact List.noConfusion h

/-- C1 (amended): for every parsed JSON array all of whose elements
support Python's containment test (objects, arrays or strings), the
validation keeps exactly those elements that are structurally objects
containing all five required keys and whose `value` coerces to a float, in
the original order, and drops the rest individually; an element of any
other type (number, boolean, null) raises an uncaught `TypeError` so the
whole call returns `[]` instead. -/
theorem c1_validation_filters :
    ∀ items : List JValue, (∀ x ∈ items, containerLike x = true) →
      validateLabData (.arr items) = items.filterMap keepsValidElem := by
  intro items h
  simp [validateLabData, validateLoop_containers items h]

/-- Witness for C1: on a concrete mixed array the validation returns
exactly the single claim-valid element. -/
theorem c1_witness :
    validateLabData (.arr mixedItems) = mixedItems.filterMap keepsValidElem
    ∧ mixedItems.filterMap keepsValidElem = [labItemGood] :=
  ⟨c1_validation_filters mixedItems (by decide), rfl⟩

theorem stripTruthy_append (a b : String) :
    stripTruthy (a ++ b) = (stripTruthy a || stripTruthy b) := by
  simp [stripTruthy]

theorem concatPages_ws (ps : List String) (h : ∀ p ∈ ps, stripTruthy p = false) :
    stripTruthy (concatPages ps) = false := by
  induction ps with
  | nil => rfl
  | cons p ps ih =>
    have hp := h p (List.mem_cons_self p ps)
    have hps : ∀ q ∈ ps, stripTruthy q = false := fun q hq => h q (List.mem_cons_of_mem _ hq)
    simp only [concatPages, stripTruthy_append, hp, ih hps, Bool.or_self, Bool.false_or]
    rfl

theorem concatPlumberPages_ws (ps : List (Option String))
    (h : ∀ o ∈ ps, stripTruthy (o.getD "") = false) :
    stripTruthy (concatPlumberPages ps) = false := by
  induction ps with
  | nil => rfl
  | cons o ps ih =>
    have hps : ∀ q ∈ ps, stripTruthy (q.getD "") = false :=
      fun q hq => h q (List.mem_cons_of_mem _ hq)
    cases o with
    | none => simpa [concatPlumberPages] using ih hps
    | some p =>
      have hp : stripTruthy p = false := by
        simpa using h (some p) (List.mem_cons_self _ ps)
      by_cases he : p = ""
      · simpa [concatPlumberPages, he] using ih hps
      · simp only [concatPlumberPages, if_neg he, stripTruthy_append, hp, ih hps,
          Bool.or_self, Bool.false_or]
        rfl

/-- C3 counterexample: for the document `blendEnv`, whose text-layer read
succeeds with an empty page and whose layout-aware read returns "hello",
the source returns the blend "\nhello\n" of the first strategy's
whitespace with the second strategy's output, not the second strategy's
own output "hello\n" that the first-non-empty-strategy-wins policy
promises. -/
theorem c3_counterexample :
    extract_text_from_pdf blendEnv = "\nhello\n"
    ∧ extractTextFirstStrategyWins blendEnv = "hello\n"
    ∧ extract_text_from_pdf blendEnv ≠ extractTextFirstStrategyWins blendEnv := by
  refine ⟨rfl, rfl, fun h => ?_⟩
  have h1 : ("\nhello\n" : String) = "hello\n" := h
  exact absurd h1 (by decide)

/-- C3 (amended): the extractor returns the *accumulated* text at the
first checkpoint at which an available, non-raising strategy leaves the
accumulator non-empty after trimming: partial or whitespace output of an
earlier strategy is retained and prepended to later strategies' output
rather than discarded, and only the first strategy can ever win with its
own output alone. -/
theorem c3_accumulated_text (env : PdfEnv) :
    extract_text_from_pdf env =
      (let t1 := if env.pypdf2Avail then concatPages env.pypdf2Pages else ""
       let t2 := if env.plumberAvail then concatPlumberPages env.plumberPages else ""
       let t3 := if env.ocrAvail then concatPages env.ocrPages else ""
       if env.pypdf2Avail && !env.pypdf2Raises && stripTruthy t1 then t1
       else if env.plumberAvail && !env.plumberRaises && stripTruthy (t1 ++ t2) then t1 ++ t2
       else t1 ++ t2 ++ t3) := by
  cases b1 : env.pypdf2Avail <;> cases b2 : env.plumberAvail <;> cases b3 : env.ocrAvail <;>
    simp [extract_text_from_pdf, b1, b2, b3, String.append_assoc]

/-- C4 counterexample: with only OCR available and OCR producing no
characters on the single page, the claim demands the exact empty string,
but the source returns the page separator "\n". -/
theorem c4_counterexample :
    extract_text_from_pdf ocrOnlyEnv = "\n" ∧ ("\n" : String) ≠ "" :=
  ⟨rfl, by decide⟩

/-- C4 (amended): `extract_text_from_pdf` is total (every `try` body's
exception is caught and the accumulator returned), and on total failure
the result trims to the empty string rather than being exactly empty:
whenever every page string any strategy produced is whitespace-only, the
result contains no non-whitespace character; when all three strategies
are unavailable, or when every strategy produced no pages at all (e.g.
each threw before its first page), the result is exactly `""`. -/
theorem c4_total_failure_whitespace :
    (∀ env : PdfEnv,
        (∀ p ∈ env.pypdf2Pages, stripTruthy p = false) →
        (∀ o ∈ env.plumberPages, stripTruthy (o.getD "") = false) →
        (∀ p ∈ env.ocrPages, stripTruthy p = false) →
        stripTruthy (extract_text_from_pdf env) = false)
    ∧ (∀ env : PdfEnv,
        env.pypdf2Avail = false → env.plumberAvail = false → env.ocrAvail = false →
        extract_text_from_pdf env = "")
    ∧ (∀ env : PdfEnv,
        env.pypdf2Pages = [] → env.plumberPages = [] → env.ocrPages = [] →
        extract_text_from_pdf env = "") := by
  refine ⟨fun env h1 h2 h3 => ?_, fun env b1 b2 b3 => ?_, fun env p1 p2 p3 => ?_⟩
  · have hc1 := concatPages_ws _ h1
    have hc2 := concatPlumberPages_ws _ h2
    have hc3 := concatPages_ws _ h3
    have h0 : stripTruthy "" = false := rfl
    cases b1 : env.pypdf2Avail <;> cases b2 : env.plumberAvail <;> cases b3 : env.ocrAvail <;>
      simp [extract_text_from_pdf, b1, b2, b3, stripTruthy_append, hc1, hc2, hc3, h0]
  · simp [extract_text_from_pdf, b1, b2, b3]
  · have h0 : stripTruthy "" = false := rfl
    cases b1 : env.pypdf2Avail <;> cases b2 : env.plumberAvail <;> cases b3 : env.ocrAvail <;>
      simp [extract_text_from_pdf, b1, b2, b3, p1, p2, p3, concatPages, concatPlumberPages, h0]

/-- Witness for C4: a concrete document whose strategies yield only
whitespace pages (one strategy raising mid-way) produces a result with no
non-whitespace character. -/
theorem c4_witness :
    stripTruthy (extract_text_from_pdf wsEnv) = false :=
  c4_total_failure_whitespace.1 wsEnv (by decide) (by decide) (by decide)

theorem findSubIdx_cons_pos (c : Char) (cs pat : List Char)
    (h : pat.isPrefixOf (c :: cs) = true) : findSubIdx (c :: cs) pat = some 0 := by
  simp [findSubIdx, h]

theorem findSubIdx_cons_neg (c : Char) (cs pat : List Char)
    (h : pat.isPrefixOf (c :: cs) = false) :
    findSubIdx (c :: cs) pat = (findSubIdx cs pat).map (· + 1) := by
  simp [findSubIdx, h]

theorem fence_isPrefixOf_append (b : List Char) : fence.isPrefixOf (fence ++ b) = true :=
  List.isPrefixOf_iff_prefix.mpr (List.prefix_append _ _)

theorem fence_not_prefix_cons {c : Char} (l : List Char) (hc : c ≠ fenceChar) :
    fence.isPrefixOf (c :: l) = false := by
  cases hb : fence.isPrefixOf (c :: l) with
  | false => rfl
  | true =>
    exfalso
    have h2 := List.isPrefixOf_iff_prefix.mp hb
    rw [show fence = fenceChar :: [fenceChar, fenceChar] from rfl, List.cons_prefix_cons] at h2
    exact hc h2.1.symm

theorem findSubIdx_fence_none (a : List Char) (ha : ∀ c ∈ a, c ≠ fenceChar) :
    findSubIdx a fence = none := by
  induction a with
  | nil => rfl
  | cons c cs ih =>
    rw [findSubIdx_cons_neg c cs fence (fence_not_prefix_cons cs (ha c (List.mem_cons_self c cs)))]
    rw [ih (fun x hx => ha x (List.mem_cons_of_mem _ hx))]
    rfl

theorem findSubIdx_fence_boundary (a b : List Char) (ha : ∀ c ∈ a, c ≠ fenceChar) :
    findSubIdx (a ++ (fence ++ b)) fence = some a.length := by
  induction a with
  | nil =>
    simp only [List.nil_append, List.length_nil]
    cases hfb : fence ++ b with
    | nil => exact absurd hfb (by simp [fence])
    | cons c cs =>
      exact findSubIdx_cons_pos c cs fence (by rw [← hfb]; exact fence_isPrefixOf_append b)
  | cons c cs ih =>
    rw [List.cons_append,
      findSubIdx_cons_neg c (cs ++ (fence ++ b)) fence
        (fence_not_prefix_cons _ (ha c (List.mem_cons_self c cs)))]
    rw [ih (fun x hx => ha x (List.mem_cons_of_mem _ hx))]
    simp

theorem dropWhile_idem (p : Char → Bool) (l : List Char) :
    (l.dropWhile p).dropWhile p = l.dropWhile p := by
  have hh := List.head?_dropWhile_not p l
  cases hd : l.dropWhile p with
  | nil => rfl
  | cons c t =>
    rw [hd] at hh
    simp only [List.head?_cons] at hh
    exact List.dropWhile_cons_of_neg (by simp [hh])

theorem pyStrip_dropWhile (l : List Char) :
    pyStripChars (l.dropWhile isPySpace) = pyStripChars l := by
  unfold pyStripChars
  rw [dropWhile_idem]

theorem fence_group_tail (ws mid post : List Char) (hws : ∀ c ∈ ws, isPySpace c = true)
    (hmid : ∀ c ∈ mid, c ≠ fenceChar) :
    (findSubIdx ((ws ++ (mid ++ (fence ++ post))).dropWhile isPySpace) fence).map
        (fun j => ((ws ++ (mid ++ (fence ++ post))).dropWhile isPySpace).take j)
      = some (mid.dropWhile isPySpace) := by
  rw [List.dropWhile_append_of_pos hws, List.dropWhile_append]
  by_cases hm : ((mid.dropWhile isPySpace).isEmpty : Bool) = true
  · rw [if_pos hm]
    have hf : (fence ++ post).dropWhile isPySpace = fence ++ post := by
      show (fenceChar :: ([fenceChar, fenceChar] ++ post)).dropWhile isPySpace = _
      exact List.dropWhile_cons_of_neg (by decide)
    rw [hf]
    have h0 := findSubIdx_fence_boundary [] post (by simp)
    simp only [List.nil_append] at h0
    rw [h0]
    have hmnil : mid.dropWhile isPySpace = [] := by simpa using hm
    simp [hmnil]
  · rw [if_neg hm]
    have hmid' : ∀ c ∈ mid.dropWhile isPySpace, c ≠ fenceChar :=
      fun c hc => hmid c ((List.dropWhile_sublist isPySpace).subset hc)
    rw [findSubIdx_fence_boundary _ post hmid']
    simp [List.take_left]

theorem fenceGroup_tagged (pre ws mid post : List Char)
    (hpre : ∀ c ∈ pre, c ≠ fenceChar) (hws : ∀ c ∈ ws, isPySpace c = true)
    (hmid : ∀ c ∈ mid, c ≠ fenceChar) :
    fenceGroup (pre ++ (fence ++ (jsonTag ++ (ws ++ (mid ++ (fence ++ post))))))
      = some (mid.dropWhile isPySpace) := by
  unfold fenceGroup
  rw [findSubIdx_fence_boundary pre _ hpre]
  show (let r := (pre ++ (fence ++ (jsonTag ++ (ws ++ (mid ++ (fence ++ post)))))).drop
          (pre.length + 3);
        let r := if jsonTag.isPrefixOf r then r.drop 4 else r;
        let r := r.dropWhile isPySpace;
        (findSubIdx r fence).map (fun j => r.take j)) = some (mid.dropWhile isPySpace)
  have hdrop : (pre ++ (fence ++ (jsonTag ++ (ws ++ (mid ++ (fence ++ post)))))).drop
      (pre.length + 3) = jsonTag ++ (ws ++ (mid ++ (fence ++ post))) := by
    rw [← List.append_assoc]
    exact List.drop_left' (by simp [fence])
  rw [hdrop]
  have htag : jsonTag.isPrefixOf (jsonTag ++ (ws ++ (mid ++ (fence ++ post)))) = true :=
    List.isPrefixOf_iff_prefix.mpr (List.prefix_append _ _)
  simp only [htag, eq_self_iff_true, if_true]
  rw [show (jsonTag ++ (ws ++ (mid ++ (fence ++ post)))).drop 4 = ws ++ (mid ++ (fence ++ post))
      from List.drop_left' (by simp [jsonTag])]
  exact fence_group_tail ws mid post hws hmid

theorem jsonTag_not_prefix_of_space (w : Char) (l : List Char) (hw : isPySpace w = true) :
    jsonTag.isPrefixOf (w :: l) = false := by
  cases hb : jsonTag.isPrefixOf (w :: l) with
  | false => rfl
  | true =>
    exfalso
    have h2 := List.isPrefixOf_iff_prefix.mp hb
    rw [show jsonTag = 'j' :: ['s', 'o', 'n'] from rfl, List.cons_prefix_cons] at h2
    rw [← h2.1] at hw
    exact absurd hw (by decide)

theorem fenceGroup_untagged (pre ws mid post : List Char) (hne : ws ≠ [])
    (hpre : ∀ c ∈ pre, c ≠ fenceChar) (hws : ∀ c ∈ ws, isPySpace c = true)
    (hmid : ∀ c ∈ mid, c ≠ fenceChar) :
    fenceGroup (pre ++ (fence ++ (ws ++ (mid ++ (fence ++ post)))))
      = some (mid.dropWhile isPySpace) := by
  unfold fenceGroup
  rw [findSubIdx_fence_boundary pre _ hpre]
  show (let r := (pre ++ (fence ++ (ws ++ (mid ++ (fence ++ post))))).drop (pre.length + 3);
        let r := if jsonTag.isPrefixOf r then r.drop 4 else r;
        let r := r.dropWhile isPySpace;
        (findSubIdx r fence).map (fun j => r.take j)) = some (mid.dropWhile isPySpace)
  have hdrop : (pre ++ (fence ++ (ws ++ (mid ++ (fence ++ post))))).drop (pre.length + 3)
      = ws ++ (mid ++ (fence ++ post)) := by
    rw [← List.append_assoc]
    exact List.drop_left' (by simp [fence])
  rw [hdrop]
  obtain ⟨w, ws', rfl⟩ : ∃ w ws', ws = w :: ws' := by
    cases ws with
    | nil => exact absurd rfl hne
    | cons w ws' => exact ⟨w, ws', rfl⟩
  have htag : jsonTag.isPrefixOf ((w :: ws') ++ (mid ++ (fence ++ post))) = false := by
    rw [List.cons_append]
    exact jsonTag_not_prefix_of_space w _ (hws w (List.mem_cons_self w ws'))
  simp only [htag, Bool.false_eq_true, if_false]
  exact fence_group_tail (w :: ws') mid post hws hmid

theorem containsSub_cons (c : Char) (cs pat : List Char) :
    containsSub (c :: cs) pat = (pat.isPrefixOf (c :: cs) || containsSub cs pat) := by
  cases hb : pat.isPrefixOf (c :: cs) with
  | true => simp [containsSub, findSubIdx_cons_pos c cs pat hb, hb]
  | false => simp [containsSub, findSubIdx_cons_neg c cs pat hb, hb]

theorem subFenceLine_nil : subFenceLine [] = [] := by
  simp [subFenceLine]

theorem subFenceLine_pos (c : Char) (cs : List Char) (h : fence.isPrefixOf (c :: cs) = true) :
    subFenceLine (c :: cs) = subFenceLine (dropLineRest (cs.drop 2)) := by
  rw [subFenceLine]
  simp [h]

theorem subFenceLine_neg (c : Char) (cs : List Char) (h : fence.isPrefixOf (c :: cs) = false) :
    subFenceLine (c :: cs) = c :: subFenceLine cs := by
  rw [subFenceLine]
  simp [h]

theorem beq_fenceChar_false {c : Char} (hc : c ≠ fenceChar) : (fenceChar == c) = false := by
  simp only [beq_eq_false_iff_ne, ne_eq]
  exact fun e => hc e.symm

theorem twoTick_stable : ∀ s : List Char,
    [fenceChar, fenceChar].isPrefixOf s = false →
    [fenceChar, fenceChar].isPrefixOf (subFenceLine s) = false := by
  intro s h
  cases s with
  | nil => rw [subFenceLine_nil]; rfl
  | cons c cs =>
    by_cases hc : c = fenceChar
    · subst hc
      rw [List.isPrefixOf_cons₂] at h
      simp only [BEq.refl, Bool.true_and] at h
      have hone : [fenceChar].isPrefixOf cs = false := h
      have hfp : fence.isPrefixOf (fenceChar :: cs) = false := by
        rw [show fence = fenceChar :: [fenceChar, fenceChar] from rfl, List.isPrefixOf_cons₂]
        simp only [BEq.refl, Bool.true_and]
        cases cs with
        | nil => rfl
        | cons d t =>
          rw [List.isPrefixOf_cons₂] at hone ⊢
          simp only [List.isPrefixOf_nil_left, Bool.and_true] at hone
          rw [hone, Bool.false_and]
      rw [subFenceLine_neg _ _ hfp, List.isPrefixOf_cons₂]
      simp only [BEq.refl, Bool.true_and]
      cases cs with
      | nil => rw [subFenceLine_nil]; rfl
      | cons d t =>
        rw [List.isPrefixOf_cons₂] at hone
        simp only [List.isPrefixOf_nil_left, Bool.and_true] at hone
        have hd : d ≠ fenceChar := by
          intro e
          rw [e] at hone
          simp at hone
        rw [subFenceLine_neg d t (fence_not_prefix_cons t hd), List.isPrefixOf_cons₂, hone,
          Bool.false_and]
    · rw [subFenceLine_neg c cs (fence_not_prefix_cons cs hc), List.isPrefixOf_cons₂,
        beq_fenceChar_false hc, Bool.false_and]

theorem subFenceLine_no_fence : ∀ s : List Char, containsSub (subFenceLine s) fence = false := by
  intro s
  induction s using subFenceLine.induct with
  | case1 => rw [subFenceLine_nil]; rfl
  | case2 c cs h ih =>
    rw [subFenceLine_pos c cs (List.isPrefixOf_iff_prefix.mpr (by simpa using h))]
    exact ih
  | case3 c cs h ih =>
    have h' : fence.isPrefixOf (c :: cs) = false := by
      cases hb : fence.isPrefixOf (c :: cs) with
      | false => rfl
      | true => exact absurd (List.isPrefixOf_iff_prefix.mp hb) (by simpa using h)
    rw [subFenceLine_neg c cs h', containsSub_cons]
    have hnp : fence.isPrefixOf (c :: subFenceLine cs) = false := by
      by_cases hc : c = fenceChar
      · subst hc
        rw [show fence = fenceChar :: [fenceChar, fenceChar] from rfl, List.isPrefixOf_cons₂] at h' ⊢
        simp only [BEq.refl, Bool.true_and] at h' ⊢
        exact twoTick_stable cs h'
      · exact fence_not_prefix_cons _ hc
    rw [hnp, ih, Bool.or_self]

theorem containsSub_false_not_prefix (cs : List Char) (h : containsSub cs fence = false) :
    fence.isPrefixOf cs = false := by
  cases cs with
  | nil => rfl
  | cons c t =>
    rw [containsSub_cons] at h
    exact (Bool.or_eq_false_iff.mp h).1

theorem subBareFence_nil : subBareFence [] = [] := by
  simp [subBareFence]

theorem subBareFence_id (s : List Char) (h : containsSub s fence = false) :
    subBareFence s = s := by
  induction s with
  | nil => exact subBareFence_nil
  | cons c cs ih =>
    rw [containsSub_cons] at h
    obtain ⟨h1, h2⟩ := Bool.or_eq_false_iff.mp h
    have h3 : fence.isPrefixOf cs = false := containsSub_false_not_prefix cs h2
    rw [subBareFence]
    simp only [h1, h3, Bool.and_false, Bool.false_eq_true, if_false]
    rw [ih h2]

theorem single_not_prefix_cons {x c : Char} (l : List Char) (hx : x ≠ c) :
    [x].isPrefixOf (c :: l) = false := by
  rw [List.isPrefixOf_cons₂]
  have hb : (x == c) = false := by simpa using hx
  rw [hb, Bool.false_and]

theorem findSubIdx_single_boundary (x : Char) (a b : List Char) (ha : x ∉ a) :
    findSubIdx (a ++ (x :: b)) [x] = some a.length := by
  induction a with
  | nil => exact findSubIdx_cons_pos x b [x] (by simp [List.isPrefixOf_cons₂])
  | cons c cs ih =>
    have hxc : x ≠ c := fun e => ha (by rw [e]; exact List.mem_cons_self c cs)
    rw [List.cons_append, findSubIdx_cons_neg c _ [x] (single_not_prefix_cons _ hxc)]
    rw [ih (fun hm => ha (List.mem_cons_of_mem c hm))]
    simp

theorem bracketSlice_strips_prose (a b c : List Char) (ha : '[' ∉ a) (hc : ']' ∉ c) :
    bracketSlice (a ++ (['['] ++ (b ++ ([']'] ++ c)))) = ['['] ++ (b ++ [']']) := by
  have hstart : findSubIdx (a ++ (['['] ++ (b ++ ([']'] ++ c)))) ['['] = some a.length :=
    findSubIdx_single_boundary '[' a (b ++ ([']'] ++ c)) ha
  have hrevshape : (a ++ (['['] ++ (b ++ ([']'] ++ c)))).reverse
      = c.reverse ++ (']' :: (b.reverse ++ ('[' :: a.reverse))) := by
    simp
  have hstop : findSubIdx (a ++ (['['] ++ (b ++ ([']'] ++ c)))).reverse [']']
      = some c.reverse.length := by
    rw [hrevshape]
    exact findSubIdx_single_boundary ']' c.reverse _ (by simpa using hc)
  simp only [bracketSlice, hstart, hstop, Option.map_some', List.length_reverse]
  have hlen : (a ++ (['['] ++ (b ++ ([']'] ++ c)))).length
      = a.length + b.length + c.length + 2 := by
    simp
    omega
  rw [hlen]
  have harith : a.length + b.length + c.length + 2 - 1 - c.length + 1 - a.length
      = b.length + 2 := by omega
  rw [harith, List.drop_left]
  rw [show ['['] ++ (b ++ ([']'] ++ c)) = (['['] ++ (b ++ [']'])) ++ c by simp]
  rw [List.take_left' (by simp)]

/-- C5: the JSON recovery step of `extract_lab_data_with_gemini` on the
stripped response text behaves as the claim describes.  (1) With no fence
marker present the text reaches the bracket slicing unchanged.  (2, 3)
With a fenced block present (language-tagged or not), the content between
the first matching pair of fence markers is extracted (stripped) and then
sliced.  (4) With a fence marker present but no matching pair, the
fallback substitutions remove every fence marker before slicing.  (5) The
slicing step keeps the text from the first `[` to the last `]` inclusive,
discarding leading and trailing prose.  (6) The whole step is the strip of
`response.text` followed by `recoverCore`. -/
theorem c5_json_recovery :
    (∀ t : List Char, containsSub t fence = false → recoverCore t = bracketSlice t)
    ∧ (∀ pre ws mid post : List Char,
        (∀ c ∈ pre, c ≠ fenceChar) → (∀ c ∈ ws, isPySpace c = true) →
        (∀ c ∈ mid, c ≠ fenceChar) →
        recoverCore (pre ++ (fence ++ (jsonTag ++ (ws ++ (mid ++ (fence ++ post))))))
          = bracketSlice (pyStripChars mid))
    ∧ (∀ pre ws mid post : List Char, ws ≠ [] →
        (∀ c ∈ pre, c ≠ fenceChar) → (∀ c ∈ ws, isPySpace c = true) →
        (∀ c ∈ mid, c ≠ fenceChar) →
        recoverCore (pre ++ (fence ++ (ws ++ (mid ++ (fence ++ post)))))
          = bracketSlice (pyStripChars mid))
    ∧ (∀ t : List Char, containsSub t fence = true → fenceGroup t = none →
        containsSub (fenceStage t) fence = false)
    ∧ (∀ a b c : List Char, '[' ∉ a → ']' ∉ c →
        bracketSlice (a ++ (['['] ++ (b ++ ([']'] ++ c)))) = ['['] ++ (b ++ [']']))
    ∧ (∀ raw : String, recoverResponseText raw = ⟨recoverCore (pyStripChars raw.data)⟩) := by
  refine ⟨fun t h => ?_, fun pre ws mid post hpre hws hmid => ?_,
    fun pre ws mid post hne hpre hws hmid => ?_, fun t hc hg => ?_,
    bracketSlice_strips_prose, fun raw => rfl⟩
  · simp [recoverCore, fenceStage, h]
  · have hcontains : containsSub
        (pre ++ (fence ++ (jsonTag ++ (ws ++ (mid ++ (fence ++ post)))))) fence = true := by
      unfold containsSub
      rw [findSubIdx_fence_boundary pre _ hpre]
      rfl
    simp [recoverCore, fenceStage, hcontains,
      fenceGroup_tagged pre ws mid post hpre hws hmid, pyStrip_dropWhile]
  · have hcontains : containsSub
        (pre ++ (fence ++ (ws ++ (mid ++ (fence ++ post))))) fence = true := by
      unfold containsSub
      rw [findSubIdx_fence_boundary pre _ hpre]
      rfl
    simp [recoverCore, fenceStage, hcontains,
      fenceGroup_untagged pre ws mid post hne hpre hws hmid, pyStrip_dropWhile]
  · simp only [fenceStage, hc, hg, if_pos rfl]
    rw [subBareFence_id _ (subFenceLine_no_fence t)]
    exact subFenceLine_no_fence t

/-- Witness for C5: a concrete response with prose, a `json`-tagged fenced
block and trailing prose recovers the fenced array content. -/
theorem c5_witness :
    recoverCore ("Here is the JSON:\n".data
        ++ (fence ++ (jsonTag ++ (['\n'] ++ ("[1, 2]\n".data ++ (fence ++ "\nThanks!".data))))))
      = bracketSlice (pyStripChars "[1, 2]\n".data) :=
  c5_json_recovery.2.1 "Here is the JSON:\n".data ['\n'] "[1, 2]\n".data "\nThanks!".data
    (by decide) (by decide) (by decide)

end MedApp
